import Mathlib

/-!
Verification of the `AgentRegistry` transaction-submission subsystem and the
`getChainId` utility of the forta-bot-sdk CLI (src/cli/contracts/agent.registry.ts
and the accompanying utility module), via a shallow embedding in Lean 4.

JavaScript numbers are IEEE-754 binary64 values; we model the positive range
relevant here by exact rationals together with an explicit rounding function
`fpRound53` (round to nearest, ties to even, 53-bit significand).  `Math.round`
is modelled by `jsMathRound` (exact nearest integer of the double's rational
value, half-integers rounded toward positive infinity, per the ECMAScript
specification of `Math.round`).
-/

/-- Round a rational to the nearest integer, ties to even: the rounding used by
IEEE-754 binary64 arithmetic on the significand. -/
def rne (x : ℚ) : ℤ :=
  let f : ℤ := x.floor
  if x - f < 1/2 then f
  else if 1/2 < x - f then f + 1
  else if f % 2 = 0 then f else f + 1

/-- Fuel-driven base-2 logarithm on naturals, exact for arguments below
`2 ^ fuel`; structural recursion keeps it reducible. -/
def log2Fuel : ℕ → ℕ → ℕ
  | 0, _ => 0
  | fuel + 1, n => if 2 ≤ n then log2Fuel fuel (n / 2) + 1 else 0

/-- Floor of the base-2 logarithm of a rational `q ≥ 1` (exact below `2 ^ 64`,
far above every quantity arising here). -/
def floorLog2 (q : ℚ) : ℕ := log2Fuel 64 q.floor.toNat

/-- Binary64 rounding of a nonnegative rational in the normal finite range:
the significand (53 bits) is rounded to nearest, ties to even.  All arguments
arising in this development are `0` or `≥ 1` and far below the overflow
threshold `2^1024`, so neither subnormals nor infinities arise; on `0` the
function is the identity, which is exact. -/
def fpRound53 (q : ℚ) : ℚ :=
  if q < 1 then q
  else
    let e := floorLog2 q
    if e ≤ 52 then (rne (q * 2 ^ (52 - e)) : ℚ) / 2 ^ (52 - e)
    else (rne (q / 2 ^ (e - 52)) : ℚ) * 2 ^ (e - 52)

/-- Binary64 multiplication of two exactly-represented doubles: the exact
product, rounded back to a double. -/
def fpMul (x y : ℚ) : ℚ := fpRound53 (x * y)

/-- ECMAScript `Math.round` on a nonnegative double: the integer nearest to the
value, half-integers rounded toward positive infinity. -/
def jsMathRound (q : ℚ) : ℤ := (q + 1/2).floor

/-- Source: `const GAS_MULTIPLIER = 1.15` — the literal `1.15` denotes the
binary64 value nearest to 23/20. -/
def GAS_MULTIPLIER : ℚ := fpRound53 (23/20)

/-- Source: `const GAS_PRICE_MULTIPLIER = 1.5` — the literal `1.5` is exactly
representable in binary64. -/
def GAS_PRICE_MULTIPLIER : ℚ := fpRound53 (3/2)

/-- Source: `type AgentDescription = { created; owner; metadata }`. -/
structure AgentDescription where
  created : Bool
  owner : String
  metadata : String
deriving DecidableEq

/-- An ethers `Wallet`: an external signer capability bound to one address. -/
structure Wallet where
  address : String
deriving DecidableEq

/-- How an ethers `Contract` object is bound: to the bare JSON-RPC provider
(read-only) or to a wallet connected to that provider (able to sign). -/
inductive Connection where
  | readonly
  | signer (w : Wallet)
deriving DecidableEq

/-- An ethers `Contract` binding: target address plus connection.  The fixed
ABI is an external input and carries no information needed here. -/
structure Contract where
  address : String
  connection : Connection
deriving DecidableEq

/-- An opaque error produced by the ethers library or the JSON-RPC endpoint
(network failure, reverted estimation call, ...). -/
structure EthersError where
  msg : String
deriving DecidableEq

/-- Failures of registry operations, tagged by the stage whose `await` threw.
The TypeScript code rethrows the underlying error unchanged; the constructor
records at which point of the pipeline it was thrown and carries the cause. -/
inductive RegError where
  | estimation (cause : EthersError)
  | numericOverflow
  | submission (cause : EthersError)
  | confirmation (cause : EthersError)
  | missingSigner
  | endpoint (cause : EthersError)
deriving DecidableEq

/-- A contract call with its positional arguments, as encoded by the binding:
one constructor per write method of the registry interface. -/
inductive CallData where
  | createAgent (agentId ownerAddress reference : String) (chainIds : List ℕ)
  | updateAgent (agentId reference : String) (chainIds : List ℕ)
  | enableAgent (agentId : String) (permission : ℕ)
  | disableAgent (agentId : String) (permission : ℕ)
deriving DecidableEq

/-- The fee quote attached to a submitted transaction (`txOptions`). -/
structure TxOptions where
  gasLimit : ℤ
  gasPrice : ℤ
deriving DecidableEq

/-- One interaction with the remote endpoint, in program order: the trace of
these events is what a run submits/queries. -/
inductive RpcEvent where
  | estimate (call : CallData)
  | gasPriceQuery
  | send (call : CallData) (opts : TxOptions) (hash : String)
  | waitMined (hash : String)
  | readAgentCall (agentId : String)
  | readEnabledCall (agentId : String)
deriving DecidableEq

/-- The remote endpoint and its responses, one field per JSON-RPC capability
used by the code; deterministic within a single orchestrated call. -/
structure Env where
  estimateGas : CallData → Except EthersError ℕ
  getGasPrice : Except EthersError ℕ
  sendTx : CallData → TxOptions → Except EthersError String
  waitTx : String → Except EthersError Unit
  readAgent : String → Except EthersError AgentDescription
  readEnabled : String → Except EthersError Bool

/-- Source: `class AgentRegistry { constructor(provider, contractAddress) }` —
the provider itself is opaque; its behaviour lives in `Env`. -/
structure AgentRegistry where
  agentRegistryContractAddress : String
deriving DecidableEq

/-- Source: `getContract(fromWallet?)` — binds the contract to the signer
(wallet connected to the provider) when given, otherwise to the read-only
provider. -/
def AgentRegistry.getContract (r : AgentRegistry) (fromWallet : Option Wallet) : Contract :=
  { address := r.agentRegistryContractAddress,
    connection :=
      match fromWallet with
      | some w => .signer w
      | none => .readonly }

/-- Modelled from the spec: ethers `BigNumber.toNumber()` — converts to a JS
number, throwing on magnitudes that exceed the safe-integer bound `2^53 - 1`
(the numeric-fault guard of the external library, not code under src/). -/
def BigNumber.toNumber (n : ℕ) : Except RegError ℕ :=
  if n ≤ 2 ^ 53 - 1 then .ok n else .error .numericOverflow

/-- Source: `estimateGas.<method>(...)` on a bound contract — forwards the
estimation request to the endpoint (no signer needed to estimate). -/
def Contract.estimateGasCall (_c : Contract) (env : Env) (call : CallData) :
    Except RegError ℕ × List RpcEvent :=
  match env.estimateGas call with
  | .ok gas => (.ok gas, [.estimate call])
  | .error e => (.error (.estimation e), [.estimate call])

/-- Modelled from the spec: sending a state-changing call through the binding
requires a signer-bound connection; without one the binding fails with the
missing-signer error before anything reaches the network (ethers behaviour,
not code under src/). -/
def Contract.sendCall (c : Contract) (env : Env) (call : CallData) (opts : TxOptions) :
    Except RegError String × List RpcEvent :=
  match c.connection with
  | .readonly => (.error .missingSigner, [])
  | .signer _ =>
    match env.sendTx call opts with
    | .ok hash => (.ok hash, [.send call opts hash])
    | .error e => (.error (.submission e), [])

/-- Source: `getAgent(agentId)` dispatched on a read-only contract binding. -/
def Contract.getAgentCall (_c : Contract) (env : Env) (agentId : String) :
    Except RegError AgentDescription × List RpcEvent :=
  match env.readAgent agentId with
  | .ok d => (.ok d, [.readAgentCall agentId])
  | .error e => (.error (.endpoint e), [.readAgentCall agentId])

/-- Source: `isEnabled(agentId)` dispatched on a read-only contract binding. -/
def Contract.isEnabledCall (_c : Contract) (env : Env) (agentId : String) :
    Except RegError Bool × List RpcEvent :=
  match env.readEnabled agentId with
  | .ok b => (.ok b, [.readEnabledCall agentId])
  | .error e => (.error (.endpoint e), [.readEnabledCall agentId])

/-- The fee quote the code computes from raw integer estimate `g` and raw
integer price `p` once both fit in safe integers. -/
def txOptionsFor (g p : ℕ) : TxOptions :=
  { gasLimit := jsMathRound (fpMul (g : ℚ) GAS_MULTIPLIER),
    gasPrice := jsMathRound (fpMul (p : ℚ) GAS_PRICE_MULTIPLIER) }

/-- Source: `getTxOptions(gasLimit, fromWallet)` — awaits the current gas
price, then builds `{ gasLimit: Math.round(gasLimit.toNumber() * 1.15),
gasPrice: Math.round(gasPrice.toNumber() * 1.5) }`, the multiplications being
binary64.  Field-initialiser evaluation order makes `gasLimit.toNumber()`
throw, if at all, before `gasPrice.toNumber()`. -/
def AgentRegistry.getTxOptions (_r : AgentRegistry) (gasLimit : ℕ) (_fromWallet : Wallet)
    (env : Env) : Except RegError TxOptions × List RpcEvent :=
  match env.getGasPrice with
  | .error e => (.error (.estimation e), [.gasPriceQuery])
  | .ok gasPrice =>
    match BigNumber.toNumber gasLimit with
    | .error er => (.error er, [.gasPriceQuery])
    | .ok g =>
      match BigNumber.toNumber gasPrice with
      | .error er => (.error er, [.gasPriceQuery])
      | .ok p =>
        (.ok (txOptionsFor g p), [.gasPriceQuery])

/-- Source: `getAgent(agentId)` — read through the read-only binding. -/
def AgentRegistry.getAgent (r : AgentRegistry) (agentId : String) (env : Env) :
    Except RegError AgentDescription × List RpcEvent :=
  (r.getContract none).getAgentCall env agentId

/-- Source: `agentExists(agentId)` — `(await this.getAgent(agentId)).created`. -/
def AgentRegistry.agentExists (r : AgentRegistry) (agentId : String) (env : Env) :
    Except RegError Bool × List RpcEvent :=
  match r.getAgent agentId env with
  | (.ok agent, t) => (.ok agent.created, t)
  | (.error e, t) => (.error e, t)

/-- Source: `isEnabled(agentId)` — read through the read-only binding. -/
def AgentRegistry.isEnabled (r : AgentRegistry) (agentId : String) (env : Env) :
    Except RegError Bool × List RpcEvent :=
  (r.getContract none).isEnabledCall env agentId

/-- Source: `createAgent(fromWallet, agentId, reference, chainIds)` — estimate
with the wallet address as owner argument, build tx options, submit, await
mining, return the hash. -/
def AgentRegistry.createAgent (r : AgentRegistry) (fromWallet : Wallet)
    (agentId reference : String) (chainIds : List ℕ) (env : Env) :
    Except RegError String × List RpcEvent :=
  let fromAddr := fromWallet.address
  let contract := r.getContract (some fromWallet)
  let call := CallData.createAgent agentId fromAddr reference chainIds
  match contract.estimateGasCall env call with
  | (.error e, t1) => (.error e, t1)
  | (.ok gas, t1) =>
    match r.getTxOptions gas fromWallet env with
    | (.error e, t2) => (.error e, t1 ++ t2)
    | (.ok txOptions, t2) =>
      match contract.sendCall env call txOptions with
      | (.error e, t3) => (.error e, t1 ++ t2 ++ t3)
      | (.ok hash, t3) =>
        match env.waitTx hash with
        | .error e => (.error (.confirmation e), t1 ++ t2 ++ t3 ++ [.waitMined hash])
        | .ok _ => (.ok hash, t1 ++ t2 ++ t3 ++ [.waitMined hash])

/-- Source: `updateAgent(fromWallet, agentId, reference, chainIds)`. -/
def AgentRegistry.updateAgent (r : AgentRegistry) (fromWallet : Wallet)
    (agentId reference : String) (chainIds : List ℕ) (env : Env) :
    Except RegError String × List RpcEvent :=
  let contract := r.getContract (some fromWallet)
  let call := CallData.updateAgent agentId reference chainIds
  match contract.estimateGasCall env call with
  | (.error e, t1) => (.error e, t1)
  | (.ok gas, t1) =>
    match r.getTxOptions gas fromWallet env with
    | (.error e, t2) => (.error e, t1 ++ t2)
    | (.ok txOptions, t2) =>
      match contract.sendCall env call txOptions with
      | (.error e, t3) => (.error e, t1 ++ t2 ++ t3)
      | (.ok hash, t3) =>
        match env.waitTx hash with
        | .error e => (.error (.confirmation e), t1 ++ t2 ++ t3 ++ [.waitMined hash])
        | .ok _ => (.ok hash, t1 ++ t2 ++ t3 ++ [.waitMined hash])

/-- Source: `disableAgent(fromWallet, agentId)` — the permission argument is
the hardcoded `1` (`Permission.OWNER`). -/
def AgentRegistry.disableAgent (r : AgentRegistry) (fromWallet : Wallet)
    (agentId : String) (env : Env) : Except RegError String × List RpcEvent :=
  let contract := r.getContract (some fromWallet)
  let call := CallData.disableAgent agentId 1
  match contract.estimateGasCall env call with
  | (.error e, t1) => (.error e, t1)
  | (.ok gas, t1) =>
    match r.getTxOptions gas fromWallet env with
    | (.error e, t2) => (.error e, t1 ++ t2)
    | (.ok txOptions, t2) =>
      match contract.sendCall env call txOptions with
      | (.error e, t3) => (.error e, t1 ++ t2 ++ t3)
      | (.ok hash, t3) =>
        match env.waitTx hash with
        | .error e => (.error (.confirmation e), t1 ++ t2 ++ t3 ++ [.waitMined hash])
        | .ok _ => (.ok hash, t1 ++ t2 ++ t3 ++ [.waitMined hash])

/-- Source: `enableAgent(fromWallet, agentId)` — the permission argument is
the hardcoded `1` (`Permission.OWNER`). -/
def AgentRegistry.enableAgent (r : AgentRegistry) (fromWallet : Wallet)
    (agentId : String) (env : Env) : Except RegError String × List RpcEvent :=
  let contract := r.getContract (some fromWallet)
  let call := CallData.enableAgent agentId 1
  match contract.estimateGasCall env call with
  | (.error e, t1) => (.error e, t1)
  | (.ok gas, t1) =>
    match r.getTxOptions gas fromWallet env with
    | (.error e, t2) => (.error e, t1 ++ t2)
    | (.ok txOptions, t2) =>
      match contract.sendCall env call txOptions with
      | (.error e, t3) => (.error e, t1 ++ t2 ++ t3)
      | (.ok hash, t3) =>
        match env.waitTx hash with
        | .error e => (.error (.confirmation e), t1 ++ t2 ++ t3 ++ [.waitMined hash])
        | .ok _ => (.ok hash, t1 ++ t2 ++ t3 ++ [.waitMined hash])

/-- One write intent: which of the four write methods is invoked, with its
signer and arguments. -/
inductive WriteOp where
  | create (fromWallet : Wallet) (agentId reference : String) (chainIds : List ℕ)
  | update (fromWallet : Wallet) (agentId reference : String) (chainIds : List ℕ)
  | enable (fromWallet : Wallet) (agentId : String)
  | disable (fromWallet : Wallet) (agentId : String)
deriving DecidableEq

/-- The signer performing a write intent. -/
def WriteOp.wallet : WriteOp → Wallet
  | .create w _ _ _ => w
  | .update w _ _ _ => w
  | .enable w _ => w
  | .disable w _ => w

/-- The contract call a write intent encodes (method, positional arguments);
for `create` the owner argument is the signer wallet's own address, for
`enable`/`disable` the permission argument is the fixed owner tag `1`. -/
def WriteOp.callData : WriteOp → CallData
  | .create w id ref cs => .createAgent id w.address ref cs
  | .update _ id ref cs => .updateAgent id ref cs
  | .enable _ id => .enableAgent id 1
  | .disable _ id => .disableAgent id 1

/-- Dispatch a write intent to the registry method it denotes. -/
def AgentRegistry.runWrite (r : AgentRegistry) (op : WriteOp) (env : Env) :
    Except RegError String × List RpcEvent :=
  match op with
  | .create w id ref cs => r.createAgent w id ref cs env
  | .update w id ref cs => r.updateAgent w id ref cs env
  | .enable w id => r.enableAgent w id env
  | .disable w id => r.disableAgent w id env

/-- Modelled from the spec: the on-chain registry state (the contract itself
is an external collaborator, not code under src/).  Agent records are keyed by
id; the enable flag is independent of the record.  Later entries are shadowed
by earlier ones, so prepending implements an update. -/
structure RegistryState where
  agents : List (String × AgentDescription)
  enabledFlags : List (String × Bool)
deriving DecidableEq

/-- Modelled from the spec: reading a record; an id never created yields the
zero-value record (`created = false`), which is not an error. -/
def RegistryState.getAgent (st : RegistryState) (agentId : String) : AgentDescription :=
  match st.agents.lookup agentId with
  | some d => d
  | none => { created := false, owner := "", metadata := "" }

/-- Modelled from the spec: the enable/disable flag of an id. -/
def RegistryState.isEnabled (st : RegistryState) (agentId : String) : Bool :=
  match st.enabledFlags.lookup agentId with
  | some b => b
  | none => false

/-- Modelled from the spec: the effect of a mined write call on the registry —
create stores a created record with the given owner and metadata, update
replaces the metadata, enable/disable toggle the flag. -/
def RegistryState.applyCall (st : RegistryState) : CallData → RegistryState
  | .createAgent id owner ref _ =>
    { st with agents := (id, { created := true, owner := owner, metadata := ref }) :: st.agents }
  | .updateAgent id ref _ =>
    { st with agents := (id, { st.getAgent id with metadata := ref }) :: st.agents }
  | .enableAgent id _ => { st with enabledFlags := (id, true) :: st.enabledFlags }
  | .disableAgent id _ => { st with enabledFlags := (id, false) :: st.enabledFlags }

/-- Only submitted transactions change the chain; queries do not. -/
def RegistryState.applyEvent (st : RegistryState) : RpcEvent → RegistryState
  | .send call _ _ => st.applyCall call
  | _ => st

/-- Effect of a whole trace on the chain, in program order. -/
def RegistryState.applyTrace (st : RegistryState) (tr : List RpcEvent) : RegistryState :=
  tr.foldl RegistryState.applyEvent st

/-- An endpoint answering read queries from a given registry state (writes are
rejected: it serves to observe state, mirroring the read-only provider). -/
def envOfState (st : RegistryState) : Env :=
  { estimateGas := fun _ => .error { msg := "read-only" },
    getGasPrice := .error { msg := "read-only" },
    sendTx := fun _ _ => .error { msg := "read-only" },
    waitTx := fun _ => .error { msg := "read-only" },
    readAgent := fun id => .ok (st.getAgent id),
    readEnabled := fun id => .ok (st.isEnabled id) }

/-- JavaScript truthiness of an optional environment-variable string:
`undefined` and the empty string are falsy. -/
def jsTruthy : Option String → Bool
  | none => false
  | some s => !s.isEmpty

/-- Decimal digit value, `none` for non-digits. -/
def digitVal? (c : Char) : Option ℕ :=
  if c.isDigit then some (c.toNat - 48) else none

/-- Hexadecimal digit value, `none` for non-digits. -/
def hexDigitVal? (c : Char) : Option ℕ :=
  if c.isDigit then some (c.toNat - 48)
  else if 97 ≤ c.toNat ∧ c.toNat ≤ 102 then some (c.toNat - 87)
  else if 65 ≤ c.toNat ∧ c.toNat ≤ 70 then some (c.toNat - 55)
  else none

/-- Accumulate the maximal digit prefix; `none` while no digit has been read
(JS `parseInt` yields `NaN` on an empty digit prefix). -/
def parseDigits (base : ℕ) (dv : Char → Option ℕ) : List Char → Option ℕ → Option ℕ
  | [], acc => acc
  | c :: cs, acc =>
    match dv c with
    | some d => parseDigits base dv cs (some ((acc.getD 0) * base + d))
    | none => acc

/-- Modelled from the spec: JS `parseInt(s)` with no radix — skip leading
whitespace, read an optional sign, detect a `0x`/`0X` prefix (hexadecimal),
parse the maximal digit prefix; `none` models `NaN`. -/
def jsParseInt (s : String) : Option ℤ :=
  let cs := s.toList.dropWhile (fun c => c = ' ' ∨ c = '\t' ∨ c = '\n' ∨ c = '\r')
  let signAndRest : Bool × List Char :=
    match cs with
    | '-' :: rest => (true, rest)
    | '+' :: rest => (false, rest)
    | rest => (false, rest)
  let neg := signAndRest.1
  let body := signAndRest.2
  let mag : Option ℕ :=
    match body with
    | '0' :: 'x' :: rest => parseDigits 16 hexDigitVal? rest none
    | '0' :: 'X' :: rest => parseDigits 16 hexDigitVal? rest none
    | rest => parseDigits 10 digitVal? rest none
  match mag with
  | none => none
  | some n => some (if neg then -(n : ℤ) else (n : ℤ))

/-- The inputs `getChainId` consults: the `FORTA_CHAIN_ID` environment
variable and the chain id the ethers provider would report. -/
structure ChainIdEnv where
  fortaChainId : Option String
  providerChainId : ℤ
deriving DecidableEq

/-- Observable outcome of one `getChainId()` call: the returned JS number
(`none` models `NaN`), the module-level `chainId` cache afterwards, and
whether the network was queried. -/
structure ChainIdResult where
  value : Option ℤ
  cache : Option ℤ
  queriedNetwork : Bool
deriving DecidableEq

/-- Source: `getChainId` — return `parseInt(process.env.FORTA_CHAIN_ID)` when
that variable is truthy; otherwise query the provider only when the cached
`chainId` is falsy (`undefined` or `0`), store the answer, and return the
cache. -/
def getChainId (env : ChainIdEnv) (chainIdCache : Option ℤ) : ChainIdResult :=
  if jsTruthy env.fortaChainId then
    { value := jsParseInt (env.fortaChainId.getD ""),
      cache := chainIdCache,
      queriedNetwork := false }
  else
    match chainIdCache with
    | none =>
      { value := some env.providerChainId,
        cache := some env.providerChainId,
        queriedNetwork := true }
    | some c =>
      if c = 0 then
        { value := some env.providerChainId,
          cache := some env.providerChainId,
          queriedNetwork := true }
      else
        { value := some c, cache := some c, queriedNetwork := false }

/-- The estimate, fee-inflate, submit, await-confirmation pipeline shared by
the four write methods, abstracted over the encoded call; each method equals
this pipeline definitionally (see `runWrite_eq_pipeline`). -/
def writePipeline (r : AgentRegistry) (fromWallet : Wallet) (call : CallData) (env : Env) :
    Except RegError String × List RpcEvent :=
  let contract := r.getContract (some fromWallet)
  match contract.estimateGasCall env call with
  | (.error e, t1) => (.error e, t1)
  | (.ok gas, t1) =>
    match r.getTxOptions gas fromWallet env with
    | (.error e, t2) => (.error e, t1 ++ t2)
    | (.ok txOptions, t2) =>
      match contract.sendCall env call txOptions with
      | (.error e, t3) => (.error e, t1 ++ t2 ++ t3)
      | (.ok hash, t3) =>
        match env.waitTx hash with
        | .error e => (.error (.confirmation e), t1 ++ t2 ++ t3 ++ [.waitMined hash])
        | .ok _ => (.ok hash, t1 ++ t2 ++ t3 ++ [.waitMined hash])

deriving instance DecidableEq for Except

/-- The contract call an event carries, when it carries one. -/
def RpcEvent.callOf : RpcEvent → Option CallData
  | .estimate c => some c
  | .send c _ _ => some c
  | _ => none

/-- Whether an event is a transaction submission. -/
def RpcEvent.isSend : RpcEvent → Bool
  | .send _ _ _ => true
  | _ => false

/-- The permission argument of a call, when the method takes one. -/
def CallData.permissionOf : CallData → Option ℕ
  | .enableAgent _ p => some p
  | .disableAgent _ p => some p
  | _ => none

/-- A concrete registry facade instance, used to witness the theorems. -/
def sampleRegistry : AgentRegistry := { agentRegistryContractAddress := "0xRegistry" }

/-- A concrete signer wallet, used to witness the theorems. -/
def sampleWallet : Wallet := { address := "0xOwnerAddress" }

/-- An endpoint on which every step of a write succeeds. -/
def okEnv : Env :=
  { estimateGas := fun _ => .ok 100000,
    getGasPrice := .ok 5000000000,
    sendTx := fun _ _ => .ok "0xTxHash",
    waitTx := fun _ => .ok (),
    readAgent := fun _ => .ok { created := false, owner := "", metadata := "" },
    readEnabled := fun _ => .ok false }

/-- An endpoint whose gas estimation fails (for instance because the simulated
call reverts, as a duplicate `createAgent` does). -/
def revertEnv : Env :=
  { okEnv with estimateGas := fun _ => .error { msg := "execution reverted" } }

/-- An endpoint reporting the raw gas estimate 7830000000000000, a safe
integer whose exact inflation 1.15 x G is the integer 9004500000000000. -/
def bigEstEnv : Env :=
  { okEnv with estimateGas := fun _ => .ok 7830000000000000 }

/-- An endpoint reporting a gas estimate beyond the JS safe-integer range. -/
def hugeGasEnv : Env :=
  { okEnv with estimateGas := fun _ => .ok (2 ^ 53) }

lemma runWrite_eq_pipeline (r : AgentRegistry) (op : WriteOp) (env : Env) :
    r.runWrite op env = writePipeline r op.wallet op.callData env := by
  cases op <;> rfl

lemma pipeline_ok (r : AgentRegistry) (w : Wallet) (call : CallData) (env : Env) (hash : String)
    (h : (writePipeline r w call env).1 = .ok hash) :
    ∃ g p, env.estimateGas call = .ok g ∧ env.getGasPrice = .ok p ∧
      g ≤ 2 ^ 53 - 1 ∧ p ≤ 2 ^ 53 - 1 ∧
      env.sendTx call (txOptionsFor g p) = .ok hash ∧
      env.waitTx hash = .ok () ∧
      writePipeline r w call env =
        (.ok hash,
         [.estimate call, .gasPriceQuery, .send call (txOptionsFor g p) hash,
          .waitMined hash]) := by
  cases heq1 : env.estimateGas call with
  | error e =>
    simp [writePipeline, Contract.estimateGasCall, heq1] at h
  | ok gas =>
    cases heq2 : env.getGasPrice with
    | error e =>
      simp [writePipeline, Contract.estimateGasCall, AgentRegistry.getTxOptions,
        heq1, heq2] at h
    | ok p =>
      by_cases hle1 : gas ≤ 9007199254740991
      · by_cases hle2 : p ≤ 9007199254740991
        · cases heq3 : env.sendTx call (txOptionsFor gas p) with
          | error e =>
            simp [writePipeline, Contract.estimateGasCall, AgentRegistry.getTxOptions,
              Contract.sendCall, AgentRegistry.getContract, BigNumber.toNumber,
              heq1, heq2, heq3, hle1, hle2] at h
          | ok hsh =>
            cases heq4 : env.waitTx hsh with
            | error e =>
              simp [writePipeline, Contract.estimateGasCall, AgentRegistry.getTxOptions,
                Contract.sendCall, AgentRegistry.getContract, BigNumber.toNumber,
                heq1, heq2, heq3, heq4, hle1, hle2] at h
            | ok u =>
              obtain ⟨⟩ := u
              have hred : writePipeline r w call env =
                  (.ok hsh,
                   [.estimate call, .gasPriceQuery, .send call (txOptionsFor gas p) hsh,
                    .waitMined hsh]) := by
                simp [writePipeline, Contract.estimateGasCall, AgentRegistry.getTxOptions,
                  Contract.sendCall, AgentRegistry.getContract, BigNumber.toNumber,
                  heq1, heq2, heq3, heq4, hle1, hle2]
              rw [hred] at h
              simp only [Except.ok.injEq] at h
              subst h
              exact ⟨gas, p, rfl, rfl, by omega, by omega, heq3, heq4, hred⟩
        · simp [writePipeline, Contract.estimateGasCall, AgentRegistry.getTxOptions,
            BigNumber.toNumber, heq1, heq2, hle1, hle2] at h
      · simp [writePipeline, Contract.estimateGasCall, AgentRegistry.getTxOptions,
          BigNumber.toNumber, heq1, heq2, hle1] at h

lemma pipeline_estimation_error (r : AgentRegistry) (w : Wallet) (call : CallData) (env : Env)
    (e : EthersError) (h : env.estimateGas call = .error e) :
    writePipeline r w call env = (.error (.estimation e), [.estimate call]) := by
  simp [writePipeline, Contract.estimateGasCall, h]

lemma pipeline_overflow (r : AgentRegistry) (w : Wallet) (call : CallData) (env : Env)
    (g p : ℕ) (hg : env.estimateGas call = .ok g) (hp : env.getGasPrice = .ok p)
    (hover : 2 ^ 53 ≤ g ∨ 2 ^ 53 ≤ p) :
    writePipeline r w call env =
      (.error .numericOverflow, [.estimate call, .gasPriceQuery]) := by
  rcases hover with hover | hover
  · simp [writePipeline, Contract.estimateGasCall, AgentRegistry.getTxOptions,
      BigNumber.toNumber, hg, hp, show ¬ g ≤ 9007199254740991 by omega]
  · by_cases hgle : g ≤ 9007199254740991
    · simp [writePipeline, Contract.estimateGasCall, AgentRegistry.getTxOptions,
        BigNumber.toNumber, hg, hp, hgle, show ¬ p ≤ 9007199254740991 by omega]
    · simp [writePipeline, Contract.estimateGasCall, AgentRegistry.getTxOptions,
        BigNumber.toNumber, hg, hp, hgle]

lemma pipeline_send_opts (r : AgentRegistry) (w : Wallet) (call : CallData) (env : Env)
    (g p : ℕ) (hg : env.estimateGas call = .ok g) (hp : env.getGasPrice = .ok p)
    (hgle : g ≤ 2 ^ 53 - 1) (hple : p ≤ 2 ^ 53 - 1) :
    ∀ ev ∈ (writePipeline r w call env).2, ∀ c o hsh, ev = .send c o hsh →
      c = call ∧ o = txOptionsFor g p := by
  have hgle1 : g ≤ 9007199254740991 := by omega
  have hple1 : p ≤ 9007199254740991 := by omega
  cases heq3 : env.sendTx call (txOptionsFor g p) with
  | error e =>
    have : writePipeline r w call env =
        (.error (.submission e), [.estimate call, .gasPriceQuery]) := by
      simp [writePipeline, Contract.estimateGasCall, AgentRegistry.getTxOptions,
        Contract.sendCall, AgentRegistry.getContract, BigNumber.toNumber,
        hg, hp, heq3, hgle1, hple1]
    rw [this]
    intro ev hev c o hsh hev2
    subst hev2
    simp at hev
  | ok hsh0 =>
    cases heq4 : env.waitTx hsh0 with
    | error e =>
      have : writePipeline r w call env =
          (.error (.confirmation e),
           [.estimate call, .gasPriceQuery, .send call (txOptionsFor g p) hsh0,
            .waitMined hsh0]) := by
        simp [writePipeline, Contract.estimateGasCall, AgentRegistry.getTxOptions,
          Contract.sendCall, AgentRegistry.getContract, BigNumber.toNumber,
          hg, hp, heq3, heq4, hgle1, hple1]
      rw [this]
      intro ev hev c o hsh hev2
      subst hev2
      simp at hev
      rcases hev with ⟨h1, h2, h3⟩
      exact ⟨h1, h2⟩
    | ok u =>
      obtain ⟨⟩ := u
      have : writePipeline r w call env =
          (.ok hsh0,
           [.estimate call, .gasPriceQuery, .send call (txOptionsFor g p) hsh0,
            .waitMined hsh0]) := by
        simp [writePipeline, Contract.estimateGasCall, AgentRegistry.getTxOptions,
          Contract.sendCall, AgentRegistry.getContract, BigNumber.toNumber,
          hg, hp, heq3, heq4, hgle1, hple1]
      rw [this]
      intro ev hev c o hsh hev2
      subst hev2
      simp at hev
      rcases hev with ⟨h1, h2, h3⟩
      exact ⟨h1, h2⟩

lemma pipeline_trace_cases (r : AgentRegistry) (w : Wallet) (call : CallData) (env : Env) :
    (writePipeline r w call env).2 = [.estimate call]
    ∨ (writePipeline r w call env).2 = [.estimate call, .gasPriceQuery]
    ∨ ∃ g p hsh,
        (writePipeline r w call env).2 =
          [.estimate call, .gasPriceQuery, .send call (txOptionsFor g p) hsh,
           .waitMined hsh] := by
  cases heq1 : env.estimateGas call with
  | error e =>
    left
    rw [pipeline_estimation_error r w call env e heq1]
  | ok g =>
    cases heq2 : env.getGasPrice with
    | error e =>
      right; left
      simp [writePipeline, Contract.estimateGasCall, AgentRegistry.getTxOptions, heq1, heq2]
    | ok p =>
      by_cases hgle : g ≤ 9007199254740991
      · by_cases hple : p ≤ 9007199254740991
        · cases heq3 : env.sendTx call (txOptionsFor g p) with
          | error e =>
            right; left
            simp [writePipeline, Contract.estimateGasCall, AgentRegistry.getTxOptions,
              Contract.sendCall, AgentRegistry.getContract, BigNumber.toNumber,
              heq1, heq2, heq3, hgle, hple]
          | ok hsh =>
            right; right
            refine ⟨g, p, hsh, ?_⟩
            cases heq4 : env.waitTx hsh with
            | error e =>
              simp [writePipeline, Contract.estimateGasCall, AgentRegistry.getTxOptions,
                Contract.sendCall, AgentRegistry.getContract, BigNumber.toNumber,
                heq1, heq2, heq3, heq4, hgle, hple]
            | ok u =>
              obtain ⟨⟩ := u
              simp [writePipeline, Contract.estimateGasCall, AgentRegistry.getTxOptions,
                Contract.sendCall, AgentRegistry.getContract, BigNumber.toNumber,
                heq1, heq2, heq3, heq4, hgle, hple]
        · right; left
          simp [writePipeline, Contract.estimateGasCall, AgentRegistry.getTxOptions,
            BigNumber.toNumber, heq1, heq2, hgle, hple]
      · right; left
        simp [writePipeline, Contract.estimateGasCall, AgentRegistry.getTxOptions,
          BigNumber.toNumber, heq1, heq2, hgle]

lemma pipeline_callOf (r : AgentRegistry) (w : Wallet) (call : CallData) (env : Env) :
    ∀ ev ∈ (writePipeline r w call env).2, ∀ c, ev.callOf = some c → c = call := by
  rcases pipeline_trace_cases r w call env with h | h | ⟨g, p, hsh, h⟩ <;> rw [h]
  · intro ev hev c hc
    simp only [List.mem_singleton] at hev
    subst hev
    simp only [RpcEvent.callOf, Option.some.injEq] at hc
    exact hc.symm
  · intro ev hev c hc
    simp only [List.mem_cons, List.mem_singleton, List.not_mem_nil, or_false] at hev
    rcases hev with hev | hev <;> subst hev <;> simp [RpcEvent.callOf] at hc <;>
      exact hc.symm
  · intro ev hev c hc
    simp only [List.mem_cons, List.not_mem_nil, or_false] at hev
    rcases hev with hev | hev | hev | hev <;> subst hev <;> simp [RpcEvent.callOf] at hc <;>
      exact hc.symm

/-- C2: if the gas-estimation step of any write fails (endpoint error or
reverted estimation call), the operation fails with the estimation-stage error
carrying the underlying cause, and nothing is submitted to the network: the
trace consists of the estimation request alone. -/
theorem estimation_failure_aborts_write (r : AgentRegistry) (op : WriteOp) (env : Env)
    (e : EthersError) (h : env.estimateGas op.callData = .error e) :
    r.runWrite op env = (.error (.estimation e), [.estimate op.callData]) ∧
    ∀ ev ∈ (r.runWrite op env).2, ev.isSend = false := by
  rw [runWrite_eq_pipeline]
  have hrun := pipeline_estimation_error r op.wallet op.callData env e h
  refine ⟨hrun, ?_⟩
  rw [hrun]
  intro ev hev
  simp only [List.mem_singleton] at hev
  subst hev
  rfl

theorem estimation_failure_aborts_write_witness :
    sampleRegistry.runWrite
        (.create sampleWallet "0xabc" "ipfs://ref1" [1, 137]) revertEnv =
      (.error (.estimation { msg := "execution reverted" }),
       [.estimate (.createAgent "0xabc" "0xOwnerAddress" "ipfs://ref1" [1, 137])]) :=
  (estimation_failure_aborts_write sampleRegistry
    (.create sampleWallet "0xabc" "ipfs://ref1" [1, 137]) revertEnv
    { msg := "execution reverted" } rfl).1

/-- C3: a write that returns a hash has submitted exactly one transaction:
its trace is one estimation, one gas-price query, one submission and one
mining wait, the returned hash is the submitted transaction's, and the
confirmation wait completed before returning; moreover on every endpoint
whatsoever an invocation performs at most one estimation, one submission and
one wait — no stage is ever retried. -/
theorem write_submits_once_and_confirms (r : AgentRegistry) (op : WriteOp) (env : Env)
    (hash : String) (h : (r.runWrite op env).1 = .ok hash) :
    (∃ g p,
      (r.runWrite op env).2 =
        [.estimate op.callData, .gasPriceQuery, .send op.callData (txOptionsFor g p) hash,
         .waitMined hash] ∧
      env.sendTx op.callData (txOptionsFor g p) = .ok hash ∧
      env.waitTx hash = .ok () ∧
      ((r.runWrite op env).2.filter RpcEvent.isSend).length = 1)
    ∧ ∀ env' : Env,
        (((r.runWrite op env').2.filter RpcEvent.isSend).length ≤ 1
        ∧ ((r.runWrite op env').2.filter
            (fun ev => match ev with | .estimate _ => true | _ => false)).length ≤ 1
        ∧ ((r.runWrite op env').2.filter
            (fun ev => match ev with | .waitMined _ => true | _ => false)).length ≤ 1) := by
  constructor
  · rw [runWrite_eq_pipeline] at h ⊢
    obtain ⟨g, p, _, _, _, _, hsend, hwait, hrun⟩ :=
      pipeline_ok r op.wallet op.callData env hash h
    refine ⟨g, p, ?_, hsend, hwait, ?_⟩
    · rw [hrun]
    · rw [hrun]
      simp [RpcEvent.isSend]
  · intro env'
    rw [runWrite_eq_pipeline]
    rcases pipeline_trace_cases r op.wallet op.callData env' with htr | htr | ⟨g, p, hsh, htr⟩ <;>
      rw [htr] <;> simp [RpcEvent.isSend]

unseal Rat.mul Rat.inv Rat.add Rat.sub in
theorem write_submits_once_and_confirms_witness :
    ((sampleRegistry.runWrite (.enable sampleWallet "0xabc") okEnv).2.filter
        RpcEvent.isSend).length = 1 := by
  obtain ⟨⟨g, p, _, _, _, hlen⟩, -⟩ :=
    write_submits_once_and_confirms sampleRegistry (.enable sampleWallet "0xabc") okEnv
      "0xTxHash" (by decide)
  exact hlen

/-- C6: every endpoint call carrying arguments that `enableAgent` or
`disableAgent` issues — the gas-estimation call and the submitted contract
call alike — is the encoded method with the fixed owner-permission tag `1`;
no other permission value is ever sent. -/
theorem enable_disable_pass_owner_permission (r : AgentRegistry) (w : Wallet) (id : String)
    (env : Env) (ev : RpcEvent) (c : CallData)
    (hev : ev ∈ (r.runWrite (.enable w id) env).2 ∨ ev ∈ (r.runWrite (.disable w id) env).2)
    (hc : ev.callOf = some c) :
    c.permissionOf = some 1 ∧ (c = .enableAgent id 1 ∨ c = .disableAgent id 1) := by
  rcases hev with hev | hev
  · rw [runWrite_eq_pipeline] at hev
    have := pipeline_callOf r (WriteOp.enable w id).wallet (WriteOp.enable w id).callData env
      ev hev c hc
    subst this
    exact ⟨rfl, Or.inl rfl⟩
  · rw [runWrite_eq_pipeline] at hev
    have := pipeline_callOf r (WriteOp.disable w id).wallet (WriteOp.disable w id).callData env
      ev hev c hc
    subst this
    exact ⟨rfl, Or.inr rfl⟩

unseal Rat.mul Rat.inv Rat.add Rat.sub in
theorem enable_disable_pass_owner_permission_witness :
    (CallData.enableAgent "0xabc" 1).permissionOf = some 1 :=
  (enable_disable_pass_owner_permission sampleRegistry sampleWallet "0xabc" okEnv
    (.estimate (.enableAgent "0xabc" 1)) (.enableAgent "0xabc" 1)
    (Or.inl (by decide)) rfl).1

lemma getAgent_trace (r : AgentRegistry) (id : String) (env : Env) :
    (r.getAgent id env).2 = [.readAgentCall id] := by
  cases h : env.readAgent id <;>
    simp [AgentRegistry.getAgent, Contract.getAgentCall, h]

lemma agentExists_trace (r : AgentRegistry) (id : String) (env : Env) :
    (r.agentExists id env).2 = [.readAgentCall id] := by
  cases h : env.readAgent id <;>
    simp [AgentRegistry.agentExists, AgentRegistry.getAgent, Contract.getAgentCall, h]

lemma isEnabled_trace (r : AgentRegistry) (id : String) (env : Env) :
    (r.isEnabled id env).2 = [.readEnabledCall id] := by
  cases h : env.readEnabled id <;>
    simp [AgentRegistry.isEnabled, Contract.isEnabledCall, h]

/-- C7: writes run against the signer-bound contract (the binding obtained
from the signer wallet), while submitting a state-changing call through a
binding without signer fails with the missing-signer error — before anything
reaches the network — and that error is distinct from every network-stage
fault. -/
theorem write_requires_signer (r : AgentRegistry) (op : WriteOp) (env : Env)
    (call : CallData) (opts : TxOptions) :
    (r.getContract (some op.wallet)).connection = .signer op.wallet
    ∧ (r.getContract none).sendCall env call opts = (.error .missingSigner, [])
    ∧ ∀ e, RegError.missingSigner ≠ .estimation e ∧ RegError.missingSigner ≠ .submission e
        ∧ RegError.missingSigner ≠ .confirmation e ∧ RegError.missingSigner ≠ .endpoint e := by
  refine ⟨rfl, rfl, ?_⟩
  intro e
  refine ⟨?_, ?_, ?_, ?_⟩ <;> intro h <;> cases h

/-- C8: the three read operations bind the contract read-only, interact with
the endpoint through a single read query each — no gas estimation, no
gas-price query, no submission, no wait — and leave the registry state
unchanged. -/
theorem reads_are_effect_free (r : AgentRegistry) (id : String) (env : Env)
    (st : RegistryState) :
    (r.getContract none).connection = .readonly
    ∧ (r.getAgent id env).2 = [.readAgentCall id]
    ∧ (r.agentExists id env).2 = [.readAgentCall id]
    ∧ (r.isEnabled id env).2 = [.readEnabledCall id]
    ∧ st.applyTrace (r.getAgent id env).2 = st
    ∧ st.applyTrace (r.agentExists id env).2 = st
    ∧ st.applyTrace (r.isEnabled id env).2 = st := by
  refine ⟨rfl, getAgent_trace r id env, agentExists_trace r id env, isEnabled_trace r id env,
    ?_, ?_, ?_⟩
  · rw [getAgent_trace]
    rfl
  · rw [agentExists_trace]
    rfl
  · rw [isEnabled_trace]
    rfl

/-- C5: `agentExists` returns exactly the `created` field of the record
`getAgent` yields (and propagates its error otherwise); on a state in which
an id was never created, the zero-value record is returned, so `agentExists`
is `false` and `getAgent` reports `created = false`. -/
theorem agentExists_is_getAgent_created (r : AgentRegistry) (id : String) (env : Env)
    (st : RegistryState) (h : st.agents.lookup id = none) :
    (r.agentExists id env).1 = (r.getAgent id env).1.map (fun d => d.created)
    ∧ (r.agentExists id (envOfState st)).1 = .ok false
    ∧ (r.getAgent id (envOfState st)).1 = .ok (st.getAgent id)
    ∧ (st.getAgent id).created = false := by
  have hzero : st.getAgent id = { created := false, owner := "", metadata := "" } := by
    simp [RegistryState.getAgent, h]
  refine ⟨?_, ?_, ?_, ?_⟩
  · cases heq : env.readAgent id <;>
      simp [AgentRegistry.agentExists, AgentRegistry.getAgent, Contract.getAgentCall, heq,
        Except.map]
  · simp [AgentRegistry.agentExists, AgentRegistry.getAgent, Contract.getAgentCall,
      envOfState, hzero]
  · simp [AgentRegistry.getAgent, Contract.getAgentCall, envOfState]
  · rw [hzero]

theorem agentExists_is_getAgent_created_witness :
    (sampleRegistry.agentExists "0xabc"
        (envOfState { agents := [], enabledFlags := [] })).1 = .ok false :=
  (agentExists_is_getAgent_created sampleRegistry "0xabc" okEnv
    { agents := [], enabledFlags := [] } rfl).2.1

/-- C10: when the raw gas estimate or the raw network gas price reported to a
write does not fit in a JS safe integer (exceeds `2^53 - 1`), the
`toNumber()` conversion inside the fee computation throws: the write fails
with the numeric-overflow fault after the two estimation queries and before
any submission. -/
theorem fee_overflow_fails_before_submission (r : AgentRegistry) (op : WriteOp) (env : Env)
    (g p : ℕ) (hg : env.estimateGas op.callData = .ok g) (hp : env.getGasPrice = .ok p)
    (hover : 2 ^ 53 ≤ g ∨ 2 ^ 53 ≤ p) :
    r.runWrite op env = (.error .numericOverflow, [.estimate op.callData, .gasPriceQuery])
    ∧ ∀ ev ∈ (r.runWrite op env).2, ev.isSend = false := by
  rw [runWrite_eq_pipeline]
  have hrun := pipeline_overflow r op.wallet op.callData env g p hg hp hover
  refine ⟨hrun, ?_⟩
  rw [hrun]
  intro ev hev
  simp only [List.mem_cons, List.mem_singleton, List.not_mem_nil, or_false] at hev
  rcases hev with hev | hev <;> subst hev <;> rfl

theorem fee_overflow_fails_before_submission_witness :
    sampleRegistry.runWrite (.update sampleWallet "0xabc" "ipfs://ref2" [1]) hugeGasEnv =
      (.error .numericOverflow,
       [.estimate (.updateAgent "0xabc" "ipfs://ref2" [1]), .gasPriceQuery]) :=
  (fee_overflow_fails_before_submission sampleRegistry
    (.update sampleWallet "0xabc" "ipfs://ref2" [1]) hugeGasEnv (2 ^ 53) 5000000000
    rfl rfl (Or.inl le_rfl)).1

/-- C4: a successful `createAgent` passed the signer wallet's own address as
the owner argument of every argument-carrying endpoint call it made, and on
the chain state obtained by applying the submitted transaction the agent
exists with `owner` equal to the signer's address. -/
theorem createAgent_owner_is_signer (r : AgentRegistry) (w : Wallet) (id ref : String)
    (cs : List ℕ) (env : Env) (st : RegistryState) (hash : String)
    (h : (r.runWrite (.create w id ref cs) env).1 = .ok hash) :
    (∀ ev ∈ (r.runWrite (.create w id ref cs) env).2, ∀ c, ev.callOf = some c →
        c = .createAgent id w.address ref cs)
    ∧ (r.agentExists id (envOfState
          (st.applyTrace (r.runWrite (.create w id ref cs) env).2))).1 = .ok true
    ∧ (r.getAgent id (envOfState
          (st.applyTrace (r.runWrite (.create w id ref cs) env).2))).1 =
        .ok { created := true, owner := w.address, metadata := ref }
    ∧ ((st.applyTrace (r.runWrite (.create w id ref cs) env).2).getAgent id).owner
        = w.address := by
  have hpip : (writePipeline r (WriteOp.create w id ref cs).wallet
      (WriteOp.create w id ref cs).callData env).1 = .ok hash := by
    rw [← runWrite_eq_pipeline]
    exact h
  obtain ⟨g, p, _, _, _, _, _, _, hrun⟩ :=
    pipeline_ok r (WriteOp.create w id ref cs).wallet
      (WriteOp.create w id ref cs).callData env hash hpip
  have htr : (r.runWrite (.create w id ref cs) env).2 =
      [.estimate (WriteOp.create w id ref cs).callData, .gasPriceQuery,
       .send (WriteOp.create w id ref cs).callData (txOptionsFor g p) hash,
       .waitMined hash] := by
    rw [runWrite_eq_pipeline, hrun]
  have hst : st.applyTrace (r.runWrite (.create w id ref cs) env).2 =
      st.applyCall (.createAgent id w.address ref cs) := by
    rw [htr]
    rfl
  have hget : (st.applyCall (.createAgent id w.address ref cs)).getAgent id =
      { created := true, owner := w.address, metadata := ref } := by
    simp [RegistryState.applyCall, RegistryState.getAgent, List.lookup]
  refine ⟨?_, ?_, ?_, ?_⟩
  · intro ev hev c hc
    rw [runWrite_eq_pipeline] at hev
    exact pipeline_callOf r _ _ env ev hev c hc
  · rw [hst]
    simp [AgentRegistry.agentExists, AgentRegistry.getAgent, Contract.getAgentCall,
      envOfState, hget]
  · rw [hst]
    simp [AgentRegistry.getAgent, Contract.getAgentCall, envOfState, hget]
  · rw [hst, hget]

unseal Rat.mul Rat.inv Rat.add Rat.sub in
theorem createAgent_owner_is_signer_witness :
    (sampleRegistry.agentExists "0xabc"
        (envOfState
          (RegistryState.applyTrace { agents := [], enabledFlags := [] }
            (sampleRegistry.runWrite
              (.create sampleWallet "0xabc" "ipfs://ref1" [1, 137]) okEnv).2))).1 =
      .ok true :=
  (createAgent_owner_is_signer sampleRegistry sampleWallet "0xabc" "ipfs://ref1" [1, 137]
    okEnv { agents := [], enabledFlags := [] } "0xTxHash" (by decide)).2.1

/-- C9 counterexample: with `FORTA_CHAIN_ID` unset and the provider reporting
chain id `0`, the first successful call stores `0` in the cache, yet the
second call queries the network again — the `!chainId` truthiness test treats
the cached `0` as absent. -/
theorem getChainId_zero_id_requeried :
    getChainId { fortaChainId := none, providerChainId := 0 } none =
      { value := some 0, cache := some 0, queriedNetwork := true }
    ∧ (getChainId { fortaChainId := none, providerChainId := 0 }
        (getChainId { fortaChainId := none, providerChainId := 0 } none).cache).queriedNetwork
      = true := by
  decide

/-- C9 (amended): when `FORTA_CHAIN_ID` is set to a nonempty string its parsed
value is returned on every call with the cache neither consulted nor changed;
when it is unset, the first call stores the provider-reported id and queries
the network, and subsequent calls return the cached value without querying —
provided the cached id is nonzero (a zero id is falsy and is re-queried, see
the counterexample). -/
theorem getChainId_cache_behaviour (env : ChainIdEnv) (cache : Option ℤ) :
    (∀ s, env.fortaChainId = some s → s ≠ "" →
        getChainId env cache =
          { value := jsParseInt s, cache := cache, queriedNetwork := false })
    ∧ (env.fortaChainId = none → cache = none →
        getChainId env cache =
          { value := some env.providerChainId, cache := some env.providerChainId,
            queriedNetwork := true })
    ∧ (∀ c, env.fortaChainId = none → cache = some c → c ≠ 0 →
        getChainId env cache =
          { value := some c, cache := some c, queriedNetwork := false }) := by
  refine ⟨?_, ?_, ?_⟩
  · intro s hs hne
    have : s.isEmpty = false := by
      cases hemp : s.isEmpty
      · rfl
      · exact absurd ((String.isEmpty_iff s).mp hemp) hne
    simp [getChainId, jsTruthy, hs, this]
  · intro hs hc
    subst hc
    simp [getChainId, jsTruthy, hs]
  · intro c hs hc hne
    subst hc
    simp [getChainId, jsTruthy, hs, hne]

theorem getChainId_cache_behaviour_witness :
    getChainId { fortaChainId := some "137", providerChainId := 7 } (some 55) =
      { value := some 137, cache := some 55, queriedNetwork := false } := by
  rw [(getChainId_cache_behaviour
    { fortaChainId := some "137", providerChainId := 7 } (some 55)).1 "137" rfl
    (by decide)]
  decide

lemma ratFloor_eq (q : ℚ) : q.floor = ⌊q⌋ :=
  (Rat.floor_def' q).trans Rat.floor_def.symm

lemma jsMathRound_eq (q : ℚ) : jsMathRound q = ⌊q + 1/2⌋ := by
  rw [jsMathRound, ratFloor_eq]

lemma log2Fuel_bounds : ∀ (fuel n : ℕ), 1 ≤ n → n < 2 ^ fuel →
    2 ^ log2Fuel fuel n ≤ n ∧ n < 2 ^ (log2Fuel fuel n + 1)
  | 0, n, h1, h2 => by simp at h2; omega
  | fuel + 1, n, h1, h2 => by
    by_cases h : 2 ≤ n
    · have hhalf1 : 1 ≤ n / 2 := by omega
      have hhalf2 : n / 2 < 2 ^ fuel := by
        have hp : 2 ^ (fuel + 1) = 2 * 2 ^ fuel := by ring
        omega
      obtain ⟨hb1, hb2⟩ := log2Fuel_bounds fuel (n / 2) hhalf1 hhalf2
      simp only [log2Fuel, h, if_true]
      constructor
      · have : 2 ^ (log2Fuel fuel (n / 2) + 1) = 2 * 2 ^ log2Fuel fuel (n / 2) := by ring
        omega
      · have : 2 ^ (log2Fuel fuel (n / 2) + 1 + 1) = 2 * 2 ^ (log2Fuel fuel (n / 2) + 1) := by
          ring
        omega
    · have hn1 : n = 1 := by omega
      subst hn1
      simp [log2Fuel]

lemma floorLog2_bounds (q : ℚ) (h1 : 1 ≤ q) (h2 : q < 2 ^ 64) :
    (2 : ℚ) ^ floorLog2 q ≤ q ∧ q < 2 ^ (floorLog2 q + 1) := by
  have hfl : (1 : ℤ) ≤ ⌊q⌋ := by
    rw [Int.le_floor]
    exact_mod_cast h1
  have hfl0 : (0 : ℤ) ≤ ⌊q⌋ := by omega
  have hcast : ((⌊q⌋.toNat : ℤ) : ℚ) = ((⌊q⌋ : ℤ) : ℚ) := by
    rw [Int.toNat_of_nonneg hfl0]
  have hnq : ((⌊q⌋.toNat : ℕ) : ℚ) ≤ q := by
    push_cast at hcast
    rw [hcast]
    exact Int.floor_le q
  have h1n : 1 ≤ ⌊q⌋.toNat := by omega
  have h2n : ⌊q⌋.toNat < 2 ^ 64 := by
    by_contra hcon
    push_neg at hcon
    have : ((2 ^ 64 : ℕ) : ℚ) ≤ ((⌊q⌋.toNat : ℕ) : ℚ) := by exact_mod_cast hcon
    have : (2 ^ 64 : ℚ) ≤ q := by
      push_cast at this
      linarith [hnq]
    linarith
  obtain ⟨hb1, hb2⟩ := log2Fuel_bounds 64 ⌊q⌋.toNat h1n h2n
  have hflog : floorLog2 q = log2Fuel 64 ⌊q⌋.toNat := by
    rw [floorLog2, ratFloor_eq]
  constructor
  · rw [hflog]
    calc (2 : ℚ) ^ log2Fuel 64 ⌊q⌋.toNat
        = ((2 ^ log2Fuel 64 ⌊q⌋.toNat : ℕ) : ℚ) := by push_cast; ring
      _ ≤ ((⌊q⌋.toNat : ℕ) : ℚ) := by exact_mod_cast hb1
      _ ≤ q := hnq
  · rw [hflog]
    have hq1 : q < ⌊q⌋ + 1 := Int.lt_floor_add_one q
    have hn2 : ((⌊q⌋.toNat : ℕ) : ℚ) + 1 ≤ 2 ^ (log2Fuel 64 ⌊q⌋.toNat + 1) := by
      have : (⌊q⌋.toNat + 1 : ℕ) ≤ 2 ^ (log2Fuel 64 ⌊q⌋.toNat + 1) := by omega
      calc ((⌊q⌋.toNat : ℕ) : ℚ) + 1 = ((⌊q⌋.toNat + 1 : ℕ) : ℚ) := by push_cast; ring
        _ ≤ ((2 ^ (log2Fuel 64 ⌊q⌋.toNat + 1) : ℕ) : ℚ) := by exact_mod_cast this
        _ = (2 : ℚ) ^ (log2Fuel 64 ⌊q⌋.toNat + 1) := by push_cast; ring
    have : ((⌊q⌋ : ℤ) : ℚ) + 1 ≤ 2 ^ (log2Fuel 64 ⌊q⌋.toNat + 1) := by
      push_cast at hcast
      rw [← hcast]
      exact hn2
    linarith

lemma rne_abs_le (x : ℚ) : |(rne x : ℚ) - x| ≤ 1/2 := by
  have hfl : (⌊x⌋ : ℚ) ≤ x := Int.floor_le x
  have hfu : x < ⌊x⌋ + 1 := Int.lt_floor_add_one x
  rw [rne, ratFloor_eq]
  split_ifs with h1 h2 h3 <;> rw [abs_le] <;> push_cast <;> constructor <;> linarith

lemma rne_intCast (m : ℤ) : rne ((m : ℤ) : ℚ) = m := by
  rw [rne, ratFloor_eq]
  have : ⌊((m : ℤ) : ℚ)⌋ = m := Int.floor_intCast m
  rw [this]
  have : ((m : ℤ) : ℚ) - ((m : ℤ) : ℚ) = 0 := by ring
  rw [this]
  norm_num

lemma fpRound53_err (q : ℚ) (h1 : 1 ≤ q) (h2 : q < 2 ^ 64) :
    |fpRound53 q - q| ≤ q / 2 ^ 53 := by
  obtain ⟨hb1, hb2⟩ := floorLog2_bounds q h1 h2
  rw [fpRound53]
  rw [if_neg (by linarith)]
  by_cases he : floorLog2 q ≤ 52
  · rw [if_pos he]
    have hpow : (0 : ℚ) < 2 ^ (52 - floorLog2 q) := by positivity
    have hkey : (rne (q * 2 ^ (52 - floorLog2 q)) : ℚ) / 2 ^ (52 - floorLog2 q) - q
        = ((rne (q * 2 ^ (52 - floorLog2 q)) : ℚ) - q * 2 ^ (52 - floorLog2 q))
          / 2 ^ (52 - floorLog2 q) := by
      field_simp
      ring
    rw [hkey, abs_div, abs_of_pos hpow, div_le_div_iff hpow (by positivity : (0:ℚ) < 2 ^ 53)]
    have hr := rne_abs_le (q * 2 ^ (52 - floorLog2 q))
    have hsplit : (2 : ℚ) ^ (52 - floorLog2 q) * 2 ^ floorLog2 q = 2 ^ 52 := by
      rw [← pow_add]
      congr 1
      omega
    have h2e : (2 : ℚ) ^ floorLog2 q ≤ q := hb1
    calc |(rne (q * 2 ^ (52 - floorLog2 q)) : ℚ) - q * 2 ^ (52 - floorLog2 q)| * 2 ^ 53
        ≤ (1/2) * 2 ^ 53 := by
          apply mul_le_mul_of_nonneg_right hr (by positivity)
      _ = 2 ^ 52 := by norm_num
      _ = 2 ^ (52 - floorLog2 q) * 2 ^ floorLog2 q := hsplit.symm
      _ ≤ q * 2 ^ (52 - floorLog2 q) := by
          rw [mul_comm]
          exact mul_le_mul_of_nonneg_right h2e (by positivity)
  · rw [if_neg he]
    have hpow : (0 : ℚ) < 2 ^ (floorLog2 q - 52) := by positivity
    have hkey : (rne (q / 2 ^ (floorLog2 q - 52)) : ℚ) * 2 ^ (floorLog2 q - 52) - q
        = ((rne (q / 2 ^ (floorLog2 q - 52)) : ℚ) - q / 2 ^ (floorLog2 q - 52))
          * 2 ^ (floorLog2 q - 52) := by
      field_simp
    rw [hkey, abs_mul, abs_of_pos hpow]
    have hr := rne_abs_le (q / 2 ^ (floorLog2 q - 52))
    have hstep : |(rne (q / 2 ^ (floorLog2 q - 52)) : ℚ) - q / 2 ^ (floorLog2 q - 52)|
        * 2 ^ (floorLog2 q - 52) ≤ (1/2) * 2 ^ (floorLog2 q - 52) :=
      mul_le_mul_of_nonneg_right hr (by positivity)
    have hsplit : (2 : ℚ) ^ (floorLog2 q - 52) * 2 ^ 53 = 2 ^ (floorLog2 q + 1) := by
      rw [← pow_add]
      congr 1
      omega
    have hfin : (1/2 : ℚ) * 2 ^ (floorLog2 q - 52) ≤ q / 2 ^ 53 := by
      rw [le_div_iff (by positivity : (0:ℚ) < 2 ^ 53)]
      calc (1/2 : ℚ) * 2 ^ (floorLog2 q - 52) * 2 ^ 53
          = (1/2) * (2 ^ (floorLog2 q - 52) * 2 ^ 53) := by ring
        _ = (1/2) * 2 ^ (floorLog2 q + 1) := by rw [hsplit]
        _ = 2 ^ floorLog2 q := by
            rw [pow_succ]
            ring
        _ ≤ q := hb1
    linarith

lemma fpRound53_exact (n k : ℕ) (h1 : 2 ^ k ≤ n) (h2 : n < 2 ^ 53) :
    fpRound53 ((n : ℚ) / 2 ^ k) = (n : ℚ) / 2 ^ k := by
  have hk2 : (0 : ℚ) < 2 ^ k := by positivity
  have hq1 : 1 ≤ (n : ℚ) / 2 ^ k := by
    rw [le_div_iff hk2, one_mul]
    exact_mod_cast h1
  have hk53 : k < 53 := by
    by_contra hcon
    push_neg at hcon
    have : (2 : ℕ) ^ 53 ≤ 2 ^ k := Nat.pow_le_pow_right (by norm_num) hcon
    omega
  have hq2 : (n : ℚ) / 2 ^ k < 2 ^ (53 - k) := by
    rw [div_lt_iff hk2]
    have hlt : ((n : ℕ) : ℚ) < ((2 ^ 53 : ℕ) : ℚ) := by exact_mod_cast h2
    calc ((n : ℕ) : ℚ) < ((2 ^ 53 : ℕ) : ℚ) := hlt
      _ = (2 : ℚ) ^ 53 := by push_cast; ring
      _ = 2 ^ (53 - k) * 2 ^ k := by
          rw [← pow_add]
          congr 1
          omega
  have hq64 : (n : ℚ) / 2 ^ k < 2 ^ 64 := by
    have : (2 : ℚ) ^ (53 - k) ≤ 2 ^ 64 :=
      pow_le_pow_right (by norm_num) (by omega)
    linarith
  obtain ⟨hb1, hb2⟩ := floorLog2_bounds ((n : ℚ) / 2 ^ k) hq1 hq64
  obtain ⟨E, hE⟩ : ∃ E, floorLog2 ((n : ℚ) / 2 ^ k) = E := ⟨_, rfl⟩
  rw [hE] at hb1 hb2
  have heEk : E + k ≤ 52 := by
    by_contra hcon
    push_neg at hcon
    have h53 : 53 - k ≤ E := by omega
    have : (2 : ℚ) ^ (53 - k) ≤ 2 ^ E :=
      pow_le_pow_right (by norm_num) h53
    linarith
  rw [fpRound53, if_neg (by linarith), hE, if_pos (by omega : E ≤ 52)]
  have hsval : (n : ℚ) / 2 ^ k * 2 ^ (52 - E) = ((n * 2 ^ (52 - E - k) : ℕ) : ℚ) := by
    push_cast
    rw [div_mul_eq_mul_div, div_eq_iff (ne_of_gt hk2)]
    rw [mul_assoc, ← pow_add]
    congr 2
    omega
  rw [hsval]
  have hrw : (((n * 2 ^ (52 - E - k) : ℕ) : ℚ))
      = ((((n * 2 ^ (52 - E - k) : ℕ) : ℤ)) : ℚ) := by push_cast; ring
  rw [hrw, rne_intCast]
  push_cast
  rw [div_eq_iff (by positivity : (2 : ℚ) ^ (52 - E) ≠ 0)]
  rw [div_mul_eq_mul_div, eq_div_iff (ne_of_gt hk2)]
  rw [mul_assoc, ← pow_add]
  congr 2
  omega

unseal Rat.mul Rat.inv Rat.add Rat.sub in
lemma GAS_MULTIPLIER_eq : GAS_MULTIPLIER = 2589569785738035 / 2251799813685248 := by
  decide

unseal Rat.mul Rat.inv Rat.add Rat.sub in
lemma GAS_PRICE_MULTIPLIER_eq : GAS_PRICE_MULTIPLIER = 3 / 2 := by
  decide

lemma fpMul_price_exact (p : ℕ) (h1 : 1 ≤ p) (h2 : p ≤ 3002399751580330) :
    fpMul (p : ℚ) GAS_PRICE_MULTIPLIER = 3 * (p : ℚ) / 2 := by
  rw [fpMul, GAS_PRICE_MULTIPLIER_eq]
  have harg : (p : ℚ) * (3 / 2) = ((3 * p : ℕ) : ℚ) / 2 ^ 1 := by
    push_cast
    ring
  rw [harg, fpRound53_exact (3 * p) 1 (by omega) (by omega)]
  push_cast
  ring

lemma fpMul_limit_round (g : ℕ) (h1 : 1 ≤ g) (h2 : g ≤ 230953827044640)
    (h3 : g % 20 ≠ 10) :
    jsMathRound (fpMul (g : ℚ) GAS_MULTIPLIER) = jsMathRound (23 / 20 * (g : ℚ))
    ∧ |((jsMathRound (23 / 20 * (g : ℚ)) : ℤ) : ℚ) - 23 / 20 * (g : ℚ)| < 1/2 := by
  have hgq1 : (1 : ℚ) ≤ (g : ℚ) := by exact_mod_cast h1
  have hgq2 : (g : ℚ) ≤ 230953827044640 := by exact_mod_cast h2
  have hgm1 : (1 : ℚ) ≤ GAS_MULTIPLIER := by rw [GAS_MULTIPLIER_eq]; norm_num
  have hgmle : GAS_MULTIPLIER ≤ 23 / 20 := by rw [GAS_MULTIPLIER_eq]; norm_num
  have hdiff : (23 : ℚ) / 20 - GAS_MULTIPLIER = 4 / (5 * 2 ^ 53) := by
    rw [GAS_MULTIPLIER_eq]
    norm_num
  have hq1 : 1 ≤ (g : ℚ) * GAS_MULTIPLIER := by
    calc (1 : ℚ) = 1 * 1 := by ring
      _ ≤ (g : ℚ) * GAS_MULTIPLIER := by
          apply mul_le_mul hgq1 hgm1 (by norm_num) (by linarith)
  have hqE : (g : ℚ) * GAS_MULTIPLIER ≤ 23 / 20 * (g : ℚ) := by
    rw [mul_comm]
    apply mul_le_mul_of_nonneg_right hgmle (by linarith)
  have hq64 : (g : ℚ) * GAS_MULTIPLIER < 2 ^ 64 := by
    have hup : (23 : ℚ) / 20 * (g : ℚ) ≤ 23 / 20 * 230953827044640 := by
      apply mul_le_mul_of_nonneg_left hgq2 (by norm_num)
    have hb : (23 : ℚ) / 20 * 230953827044640 < 2 ^ 64 := by norm_num
    linarith
  have herr := fpRound53_err ((g : ℚ) * GAS_MULTIPLIER) hq1 hq64
  have herr2 : |fpRound53 ((g : ℚ) * GAS_MULTIPLIER) - 23 / 20 * (g : ℚ)| < 1 / 20 := by
    have hEmq : (g : ℚ) * GAS_MULTIPLIER - 23 / 20 * (g : ℚ)
        = -((g : ℚ) * (4 / (5 * 2 ^ 53))) := by
      have : (g : ℚ) * GAS_MULTIPLIER - 23 / 20 * (g : ℚ)
          = -((g : ℚ) * (23 / 20 - GAS_MULTIPLIER)) := by ring
      rw [this, hdiff]
    have htri := abs_sub_le (fpRound53 ((g : ℚ) * GAS_MULTIPLIER))
      ((g : ℚ) * GAS_MULTIPLIER) (23 / 20 * (g : ℚ))
    have habs2 : |(g : ℚ) * GAS_MULTIPLIER - 23 / 20 * (g : ℚ)|
        = (g : ℚ) * (4 / (5 * 2 ^ 53)) := by
      rw [hEmq, abs_neg, abs_of_nonneg (by positivity)]
    have hdivmono : (g : ℚ) * GAS_MULTIPLIER / 2 ^ 53 ≤ 23 / 20 * (g : ℚ) / 2 ^ 53 := by
      gcongr
    have hnum : 23 / 20 * (g : ℚ) / 2 ^ 53 + (g : ℚ) * (4 / (5 * 2 ^ 53)) < 1 / 20 := by
      have hring : 23 / 20 * (g : ℚ) / 2 ^ 53 + (g : ℚ) * (4 / (5 * 2 ^ 53))
          = (g : ℚ) * (39 / 20) / 2 ^ 53 := by ring
      rw [hring]
      have hmono : (g : ℚ) * (39 / 20) / 2 ^ 53 ≤ (230953827044640 : ℚ) * (39 / 20) / 2 ^ 53 := by
        gcongr
      have : (230953827044640 : ℚ) * (39 / 20) / 2 ^ 53 < 1 / 20 := by norm_num
      linarith
    calc |fpRound53 ((g : ℚ) * GAS_MULTIPLIER) - 23 / 20 * (g : ℚ)|
        ≤ |fpRound53 ((g : ℚ) * GAS_MULTIPLIER) - (g : ℚ) * GAS_MULTIPLIER|
          + |(g : ℚ) * GAS_MULTIPLIER - 23 / 20 * (g : ℚ)| := htri
      _ ≤ (g : ℚ) * GAS_MULTIPLIER / 2 ^ 53 + (g : ℚ) * (4 / (5 * 2 ^ 53)) := by
          rw [habs2]
          linarith [herr]
      _ ≤ 23 / 20 * (g : ℚ) / 2 ^ 53 + (g : ℚ) * (4 / (5 * 2 ^ 53)) := by linarith
      _ < 1 / 20 := hnum
  obtain ⟨hxlow, hxhigh⟩ := abs_lt.mp herr2
  have hN : (23 * g + 10) % 20 ≠ 0 := by omega
  have hr1 : 1 ≤ (23 * g + 10) % 20 := by omega
  have hr19 : (23 * g + 10) % 20 ≤ 19 := by omega
  have hsplitN : 23 * g + 10 = 20 * ((23 * g + 10) / 20) + (23 * g + 10) % 20 :=
    (Nat.div_add_mod (23 * g + 10) 20).symm
  have hE12 : 23 / 20 * (g : ℚ) + 1/2
      = ((((23 * g + 10) / 20 : ℕ)) : ℚ) + (((23 * g + 10) % 20 : ℕ) : ℚ) / 20 := by
    have hcast : ((23 * g + 10 : ℕ) : ℚ)
        = 20 * (((23 * g + 10) / 20 : ℕ) : ℚ) + (((23 * g + 10) % 20 : ℕ) : ℚ) := by
      rw [congrArg (fun m : ℕ => (m : ℚ)) hsplitN]
      push_cast
      ring
    have hcast2 : 23 / 20 * (g : ℚ) + 1/2 = ((23 * g + 10 : ℕ) : ℚ) / 20 := by
      push_cast
      ring
    rw [hcast2, hcast]
    ring
  have hrq1 : (1 : ℚ) ≤ (((23 * g + 10) % 20 : ℕ) : ℚ) := by exact_mod_cast hr1
  have hrq19 : (((23 * g + 10) % 20 : ℕ) : ℚ) ≤ 19 := by exact_mod_cast hr19
  have hfloorE : ⌊23 / 20 * (g : ℚ) + 1/2⌋ = (((23 * g + 10) / 20 : ℕ) : ℤ) := by
    rw [Int.floor_eq_iff]
    rw [Int.cast_natCast]
    constructor
    · rw [hE12]
      linarith
    · rw [hE12]
      linarith
  have hfloorX : ⌊fpRound53 ((g : ℚ) * GAS_MULTIPLIER) + 1/2⌋
      = (((23 * g + 10) / 20 : ℕ) : ℤ) := by
    rw [Int.floor_eq_iff]
    rw [Int.cast_natCast]
    constructor
    · linarith [hE12, hxlow, hrq1]
    · linarith [hE12, hxhigh, hrq19]
  constructor
  · rw [jsMathRound_eq, jsMathRound_eq, fpMul, hfloorX, hfloorE]
  · rw [jsMathRound_eq, hfloorE]
    rw [abs_lt]
    have hE' : 23 / 20 * (g : ℚ)
        = ((((23 * g + 10) / 20 : ℕ)) : ℚ) + (((23 * g + 10) % 20 : ℕ) : ℚ) / 20 - 1/2 := by
      linarith [hE12]
    rw [hE', Int.cast_natCast]
    constructor <;> linarith

lemma jsMathRound_near (y : ℚ) : |((jsMathRound y : ℤ) : ℚ) - y| ≤ 1/2 := by
  rw [jsMathRound_eq, abs_le]
  have hl := Int.floor_le (y + 1/2)
  have hu := Int.lt_floor_add_one (y + 1/2)
  constructor <;> linarith

/-- C1 (amended): under binary64 arithmetic, every transaction submitted by a
write carries `gasPrice = Math.round(P * 1.5)` — exactly `round(P x 1.5)`
(half-integers up) for every raw price up to `3002399751580330` — and
`gasLimit = Math.round` of the double product `G (x) 1.15`, which coincides
with the unique nearest integer of the exact product `G x 23/20` for raw
estimates up to `230953827044640` whose exact product is not a half-integer
(`G % 20 ≠ 10`); beyond that range the double rounding can shift the limit by
one unit (see the counterexample). -/
theorem fee_quote_binary64 (r : AgentRegistry) (op : WriteOp) (env : Env) (g p : ℕ)
    (hg : env.estimateGas op.callData = .ok g) (hp : env.getGasPrice = .ok p)
    (hg1 : 1 ≤ g) (hg2 : g ≤ 230953827044640) (hg3 : g % 20 ≠ 10)
    (hp1 : 1 ≤ p) (hp2 : p ≤ 3002399751580330) :
    ∀ ev ∈ (r.runWrite op env).2, ∀ c o hsh, ev = .send c o hsh →
      o.gasLimit = jsMathRound (23 / 20 * (g : ℚ))
      ∧ |((o.gasLimit : ℤ) : ℚ) - 23 / 20 * (g : ℚ)| < 1/2
      ∧ o.gasPrice = jsMathRound (3 * (p : ℚ) / 2)
      ∧ |((o.gasPrice : ℤ) : ℚ) - 3 * (p : ℚ) / 2| ≤ 1/2 := by
  intro ev hev c o hsh hev2
  rw [runWrite_eq_pipeline] at hev
  obtain ⟨hc, ho⟩ := pipeline_send_opts r op.wallet op.callData env g p hg hp
    (by omega) (by omega) ev hev c o hsh hev2
  subst ho
  obtain ⟨hlim, hnear⟩ := fpMul_limit_round g hg1 hg2 hg3
  have hprice := fpMul_price_exact p hp1 hp2
  refine ⟨?_, ?_, ?_, ?_⟩
  · show jsMathRound (fpMul (g : ℚ) GAS_MULTIPLIER) = _
    exact hlim
  · show |((jsMathRound (fpMul (g : ℚ) GAS_MULTIPLIER) : ℤ) : ℚ) - _| < _
    rw [hlim]
    exact hnear
  · show jsMathRound (fpMul (p : ℚ) GAS_PRICE_MULTIPLIER) = _
    rw [hprice]
  · show |((jsMathRound (fpMul (p : ℚ) GAS_PRICE_MULTIPLIER) : ℤ) : ℚ) - _| ≤ _
    rw [hprice]
    exact jsMathRound_near (3 * (p : ℚ) / 2)

set_option maxRecDepth 100000 in
unseal Rat.mul Rat.inv Rat.add Rat.sub in
theorem fee_quote_binary64_witness :
    (txOptionsFor 100000 5000000000).gasLimit = jsMathRound (23 / 20 * (100000 : ℚ))
    ∧ (txOptionsFor 100000 5000000000).gasPrice = jsMathRound (3 * (5000000000 : ℚ) / 2)
    ∧ (txOptionsFor 100000 5000000000).gasLimit = 115000
    ∧ (txOptionsFor 100000 5000000000).gasPrice = 7500000000 := by
  obtain ⟨ha, -, hb, -⟩ :=
    fee_quote_binary64 sampleRegistry (.enable sampleWallet "0xabc") okEnv
      100000 5000000000 rfl rfl (by norm_num) (by norm_num) (by norm_num)
      (by norm_num) (by norm_num)
      (.send (.enableAgent "0xabc" 1) (txOptionsFor 100000 5000000000) "0xTxHash")
      (by decide)
      (.enableAgent "0xabc" 1) (txOptionsFor 100000 5000000000) "0xTxHash" rfl
  exact ⟨ha, hb, by decide, by decide⟩

set_option maxRecDepth 100000 in
unseal Rat.mul Rat.inv Rat.add Rat.sub in
/-- C1 counterexample: at the safe-integer raw estimate
`G = 7830000000000000` the exact inflated limit `G x 23/20` is the integer
`9004500000000000` — its own unique nearest integer — yet the submitted
transaction carries `gasLimit = 9004499999999999`: binary64 rounding of
`G * 1.15` loses the exact value, so the claimed
`gasLimit = round(G x 1.15)` fails (the gas price here is exact:
`round(5000000000 x 1.5) = 7500000000`). -/
theorem gas_limit_rounding_counterexample :
    (23 : ℚ) / 20 * 7830000000000000 = 9004500000000000
    ∧ (sampleRegistry.runWrite (.enable sampleWallet "0xabc") bigEstEnv).2 =
        [.estimate (.enableAgent "0xabc" 1), .gasPriceQuery,
         .send (.enableAgent "0xabc" 1)
           { gasLimit := 9004499999999999, gasPrice := 7500000000 } "0xTxHash",
         .waitMined "0xTxHash"]
    ∧ (9004499999999999 : ℤ) ≠ 9004500000000000 := by
  refine ⟨by norm_num, by decide, by decide⟩
